import Mathlib

/-!
Verification of the TWAIN backend's reply-processing and endpoint logic.

The repository is a FastAPI service whose own logic is string munging:
markdown-fence unwrapping of LLM replies, best-effort JSON coercion into a
`Persona` record, and endpoint-level error routing.  This file embeds that
logic shallowly:

* Python strings are `String` / `List Char`; `str.strip`, `str.split`,
  `str.startswith` are re-implemented faithfully for the call sites used.
* `json.loads` is embedded as `jsonParse`, a recursive-descent parser of the
  JSON grammar accepted by Python's `json` module (object/array/string with
  escapes/number/true/false/null).  Number literals keep their lexeme; the
  model omits `NaN`/`Infinity` and does not model float underflow, and lone
  surrogate escapes (representable in Python, not in Lean `Char`) are
  rejected; no claim depends on those corners.
* Network and database effects are oracle inputs: the LLM reply is an
  `Option String` (`none` models the call raising), the insert outcome a
  `DbResult`.
* Fallible Python code (uncaught `AttributeError` / `TypeError` /
  pydantic `ValidationError`) is modelled with `Option`, `none` meaning the
  exception propagates.  Pydantic-v2 validation of `str` fields accepts
  exactly strings (no int/None coercion).
-/

namespace Twain

/-! ### Python string primitives -/

/-- The whitespace set of Python `str.strip()` (ASCII part). -/
def pyIsSpace (c : Char) : Bool :=
  c = ' ' || c = '\t' || c = '\n' || c = '\r' || c = '\x0b' || c = '\x0c'

/-- `str.strip()` on a character list: drop whitespace from both ends. -/
def pyStripCh (l : List Char) : List Char :=
  ((l.dropWhile pyIsSpace).reverse.dropWhile pyIsSpace).reverse

/-- `str.strip()` on a `String`. -/
def pyStrip (s : String) : String := ⟨pyStripCh s.data⟩

/-- The text of `s` before the first occurrence of `sep` (all of `s` when
`sep` does not occur); this is `s.split(sep)[0]` in Python. -/
def takeBefore (sep : List Char) : List Char → List Char
  | [] => []
  | c :: rest =>
    if sep.isPrefixOf (c :: rest) then [] else c :: takeBefore sep rest

/-- `sep` occurs as a contiguous substring of `l`. -/
def hasSub (sep : List Char) : List Char → Bool
  | [] => sep.isEmpty
  | c :: rest => sep.isPrefixOf (c :: rest) || hasSub sep rest

def fenceChars : List Char := "```".data

def jsonFenceChars : List Char := "```json".data

/-- The markdown-fence unwrapping shared by `persona_scraper`,
`generate_ideas`, `generate_email_content` and `generate_linkedin_content`:

```python
response_text = ai_response.text.strip()
if response_text.startswith('```json'):
    response_text = response_text.split('```json')[1].split('```')[0].strip()
elif response_text.startswith('```'):
    response_text = response_text.split('```')[1].split('```')[0].strip()
```

For a string known to start with `sep`, `s.split(sep)[1]` is the text after
that leading `sep` up to the next occurrence of `sep` (or the end), which is
`takeBefore sep (l.drop sep.length)` here; `.split(sep)[0]` is `takeBefore`.
-/
def stripFencesCh (l0 : List Char) : List Char :=
  let l := pyStripCh l0
  if jsonFenceChars.isPrefixOf l then
    pyStripCh (takeBefore fenceChars
      (takeBefore jsonFenceChars (l.drop jsonFenceChars.length)))
  else if fenceChars.isPrefixOf l then
    pyStripCh (takeBefore fenceChars
      (takeBefore fenceChars (l.drop fenceChars.length)))
  else l

def stripFences (s : String) : String := ⟨stripFencesCh s.data⟩

/-! ### JSON values and `json.loads`

`Json` models the values produced by Python's `json.loads`: objects become
insertion-ordered association lists with last-wins duplicate keys (the
behaviour of building a `dict`), numbers keep their source lexeme. -/

inductive Json where
  | null
  | bool (b : Bool)
  | num (lexeme : String)
  | str (s : String)
  | arr (elems : List Json)
  | obj (fields : List (String × Json))
deriving Repr

/-- Python truthiness of a number literal: false exactly when the value is
zero, i.e. every digit of the mantissa (the part before any exponent) is 0.
(Float underflow such as `1e-400 == 0.0` is not modelled.) -/
def numLexemeIsZero (lex : String) : Bool :=
  (lex.data.takeWhile (fun c => c ≠ 'e' ∧ c ≠ 'E')).all
    (fun c => !c.isDigit || c = '0')

/-- Python truthiness (`bool(v)`) of a JSON-decoded value. -/
def Json.pyTruthy : Json → Bool
  | .null => false
  | .bool b => b
  | .num lex => !numLexemeIsZero lex
  | .str s => !s.isEmpty
  | .arr xs => !xs.isEmpty
  | .obj kvs => !kvs.isEmpty

/-- `d[k]` lookup in the association-list model of a Python dict. -/
def dictGet (kvs : List (String × Json)) (k : String) : Option Json :=
  match kvs with
  | [] => none
  | (k', v) :: rest => if k' = k then some v else dictGet rest k

/-- `d[k] = v` assignment: replace in place, else append (CPython keeps the
original position of an existing key). -/
def dictSet (kvs : List (String × Json)) (k : String) (v : Json) :
    List (String × Json) :=
  match kvs with
  | [] => [(k, v)]
  | (k', v') :: rest =>
    if k' = k then (k, v) :: rest else (k', v') :: dictSet rest k v

/-- `d.get(k)`: `None` (= JSON null) when the key is absent. -/
def jsonGet (kvs : List (String × Json)) (k : String) : Json :=
  (dictGet kvs k).getD Json.null

/-- `d.get(k, default)`. -/
def jsonGetD (kvs : List (String × Json)) (k : String) (d : Json) : Json :=
  (dictGet kvs k).getD d

/-- JSON inter-token whitespace (exactly the four characters Python's
`json` module skips). -/
def jsonWs (c : Char) : Bool := c = ' ' || c = '\t' || c = '\n' || c = '\r'

def skipWs : List Char → List Char
  | [] => []
  | c :: rest => if jsonWs c then skipWs rest else c :: rest

def isHexDigitCh (c : Char) : Bool :=
  c.isDigit || ('a' ≤ c && c ≤ 'f') || ('A' ≤ c && c ≤ 'F')

def hexVal (c : Char) : Nat :=
  if c.isDigit then c.toNat - '0'.toNat
  else if 'a' ≤ c && c ≤ 'f' then c.toNat - 'a'.toNat + 10
  else c.toNat - 'A'.toNat + 10

/-- The single-character escapes of JSON strings. -/
def escChar (e : Char) : Option Char :=
  if e = '"' then some '"'
  else if e = '\\' then some '\\'
  else if e = '/' then some '/'
  else if e = 'b' then some (Char.ofNat 8)
  else if e = 'f' then some (Char.ofNat 12)
  else if e = 'n' then some '\n'
  else if e = 'r' then some '\r'
  else if e = 't' then some '\t'
  else none

/-- Body of a JSON string after the opening quote: returns the decoded
characters and the remainder after the closing quote.  Strict mode: raw
control characters and unknown escapes are errors.  Surrogate pairs in
`\uXXXX` escapes are combined; lone surrogates are rejected (Python would
build a lone-surrogate `str`, which Lean's `Char` cannot represent). -/
def parseStringBody : List Char → Option (List Char × List Char)
  | [] => none
  | c :: rest =>
    if c = '"' then some ([], rest)
    else if c = '\\' then
      match rest with
      | [] => none
      | 'u' :: h1 :: h2 :: h3 :: h4 :: rest3 =>
        if isHexDigitCh h1 && isHexDigitCh h2 && isHexDigitCh h3 &&
            isHexDigitCh h4 then
          let n := ((hexVal h1 * 16 + hexVal h2) * 16 + hexVal h3) * 16 +
            hexVal h4
          if 0xD800 ≤ n && n ≤ 0xDBFF then
            match rest3 with
            | '\\' :: 'u' :: g1 :: g2 :: g3 :: g4 :: rest4 =>
              if isHexDigitCh g1 && isHexDigitCh g2 && isHexDigitCh g3 &&
                  isHexDigitCh g4 then
                let m := ((hexVal g1 * 16 + hexVal g2) * 16 + hexVal g3) * 16 +
                  hexVal g4
                if 0xDC00 ≤ m && m ≤ 0xDFFF then
                  match parseStringBody rest4 with
                  | some (cs, rem) =>
                    some (Char.ofNat
                      (0x10000 + (n - 0xD800) * 0x400 + (m - 0xDC00)) :: cs,
                      rem)
                  | none => none
                else none
              else none
            | _ => none
          else if 0xDC00 ≤ n && n ≤ 0xDFFF then none
          else
            match parseStringBody rest3 with
            | some (cs, rem) => some (Char.ofNat n :: cs, rem)
            | none => none
        else none
      | 'u' :: _ => none
      | e :: rest2 =>
        match escChar e with
        | some ec =>
          match parseStringBody rest2 with
          | some (cs, rem) => some (ec :: cs, rem)
          | none => none
        | none => none
    else if c.toNat < 0x20 then none
    else
      match parseStringBody rest with
      | some (cs, rem) => some (c :: cs, rem)
      | none => none

/-- Integer part of a JSON number: `0` or a nonzero digit followed by
digits (leading zeros are rejected, as in Python). -/
def parseIntPart : List Char → Option (List Char × List Char)
  | [] => none
  | c :: rest =>
    if c = '0' then some (['0'], rest)
    else if c.isDigit then
      some (c :: rest.takeWhile Char.isDigit, rest.dropWhile Char.isDigit)
    else none

/-- Optional fraction `.digits`; consumes nothing when absent or malformed
(mirroring the `(\.\d+)?` group of Python's number regex). -/
def parseFrac (l : List Char) : List Char × List Char :=
  match l with
  | '.' :: rest =>
    if (rest.takeWhile Char.isDigit).isEmpty then ([], l)
    else ('.' :: rest.takeWhile Char.isDigit, rest.dropWhile Char.isDigit)
  | _ => ([], l)

/-- Optional exponent `[eE][+-]?digits`; consumes nothing when absent or
malformed. -/
def parseExp (l : List Char) : List Char × List Char :=
  match l with
  | e :: s :: rest2 =>
    if e = 'e' || e = 'E' then
      if s = '+' || s = '-' then
        if (rest2.takeWhile Char.isDigit).isEmpty then ([], l)
        else (e :: s :: rest2.takeWhile Char.isDigit,
          rest2.dropWhile Char.isDigit)
      else if s.isDigit then
        (e :: s :: rest2.takeWhile Char.isDigit, rest2.dropWhile Char.isDigit)
      else ([], l)
    else ([], l)
  | _ => ([], l)

/-- A JSON number literal, kept as its lexeme. -/
def parseNumber (l : List Char) : Option (String × List Char) :=
  match l with
  | [] => none
  | c :: rest =>
    let (sign, afterSign) :=
      if c = '-' then (['-'], rest) else (([] : List Char), c :: rest)
    match parseIntPart afterSign with
    | none => none
    | some (ip, rem1) =>
      let (fp, rem2) := parseFrac rem1
      let (ep, rem3) := parseExp rem2
      some (⟨sign ++ ip ++ fp ++ ep⟩, rem3)

mutual

/-- One JSON value (with leading whitespace), returning the remainder.
`fuel` bounds the nesting depth; `jsonParse` supplies more fuel than any
input can consume. -/
def parseValue : Nat → List Char → Option (Json × List Char)
  | 0, _ => none
  | fuel + 1, cs =>
    match skipWs cs with
    | [] => none
    | c :: rest =>
      if c = '{' then
        match skipWs rest with
        | '}' :: rem => some (.obj [], rem)
        | rest2 => parseMembers fuel rest2 []
      else if c = '[' then
        match skipWs rest with
        | ']' :: rem => some (.arr [], rem)
        | rest2 => parseElements fuel rest2 []
      else if c = '"' then
        match parseStringBody rest with
        | some (cs2, rem) => some (.str ⟨cs2⟩, rem)
        | none => none
      else if c = 't' then
        match rest with
        | 'r' :: 'u' :: 'e' :: rem => some (.bool true, rem)
        | _ => none
      else if c = 'f' then
        match rest with
        | 'a' :: 'l' :: 's' :: 'e' :: rem => some (.bool false, rem)
        | _ => none
      else if c = 'n' then
        match rest with
        | 'u' :: 'l' :: 'l' :: rem => some (.null, rem)
        | _ => none
      else
        match parseNumber (c :: rest) with
        | some (lex, rem) => some (.num lex, rem)
        | none => none

/-- Members of an object after `{` (input already whitespace-skipped and
known not to start with `}`); trailing commas are errors. -/
def parseMembers : Nat → List Char → List (String × Json) →
    Option (Json × List Char)
  | 0, _, _ => none
  | fuel + 1, cs, acc =>
    match cs with
    | '"' :: rest =>
      match parseStringBody rest with
      | none => none
      | some (key, rem1) =>
        match skipWs rem1 with
        | ':' :: rem2 =>
          match parseValue fuel rem2 with
          | none => none
          | some (v, rem3) =>
            let acc2 := dictSet acc ⟨key⟩ v
            match skipWs rem3 with
            | ',' :: rem4 => parseMembers fuel (skipWs rem4) acc2
            | '}' :: rem4 => some (.obj acc2, rem4)
            | _ => none
        | _ => none
    | _ => none

/-- Elements of an array after `[` (known not to start with `]`). -/
def parseElements : Nat → List Char → List Json → Option (Json × List Char)
  | 0, _, _ => none
  | fuel + 1, cs, acc =>
    match parseValue fuel cs with
    | none => none
    | some (v, rem1) =>
      match skipWs rem1 with
      | ',' :: rem2 => parseElements fuel rem2 (acc ++ [v])
      | ']' :: rem2 => some (.arr (acc ++ [v]), rem2)
      | _ => none

end

/-- `json.loads`: parse one JSON document, allowing surrounding whitespace
and rejecting trailing data. -/
def jsonParse (s : String) : Option Json :=
  match parseValue (2 * s.length + 2) s.data with
  | some (v, rem) => if (skipWs rem).isEmpty then some v else none
  | none => none

/-! ### Pydantic models (`app/models/persona_model.py`, `sequence_model.py`) -/

/-- `SocialProof(statement: str, source: Optional[str] = None)`. -/
structure SocialProof where
  statement : String
  source : Option String
deriving DecidableEq, Repr

/-- The `Persona` record.  `name`/`title`/`company`/`email` are
`Optional[str]`; the list fields default to `[]`. -/
structure Persona where
  id : String
  name : Option String
  title : Option String
  company : Option String
  email : Option String
  pain_points : List String
  social_proof : List SocialProof
  cost_of_inaction : List String
  solutions : List String
  objections : List String
  competitive_advantages : List String
deriving DecidableEq, Repr

/-- `IdeasOutput(ideas: List[str])` (required field). -/
structure IdeasOutput where
  ideas : List String
deriving DecidableEq, Repr

/-- `MessageContent(subject: Optional[str] = None, body: str)`. -/
structure MessageContent where
  subject : Option String
  body : String
deriving DecidableEq, Repr

/-- `MessageOutput(messages: List[MessageContent])` (required field). -/
structure MessageOutput where
  messages : List MessageContent
deriving DecidableEq, Repr

inductive OutreachChannel where
  | email
  | linkedin
  | useboth
deriving DecidableEq, Repr

/-- The `.value` of the str-enum member, as interpolated into messages. -/
def OutreachChannel.channelValue : OutreachChannel → String
  | .email => "email"
  | .linkedin => "linkedin"
  | .useboth => "useboth"

/-! ### Persona normalization (`app/controllers/persona_controller.py`) -/

/-- Python `[v.strip() for v in val.split(',') if v.strip()]` without the
strip/filter: split on every comma. -/
def splitOnCommaCh : List Char → List (List Char)
  | [] => [[]]
  | c :: rest =>
    if c = ',' then [] :: splitOnCommaCh rest
    else
      match splitOnCommaCh rest with
      | [] => [[c]]
      | piece :: more => (c :: piece) :: more

/-- Strip one piece, keeping it only when non-empty (the `v.strip()` filter
and map of the list comprehension). -/
def trimPiece (piece : List Char) : Option String :=
  if (pyStripCh piece).isEmpty then none else some ⟨pyStripCh piece⟩

/-- `[v.strip() for v in s.split(',') if v.strip()]`: split on commas,
strip each piece, keep the non-empty results. -/
def commaSplitTrim (s : String) : List String :=
  (splitOnCommaCh s.data).filterMap trimPiece

/-- `ensure_list` (nested in `persona_scraper`):

```python
def ensure_list(val):
    if val is None: return []
    if isinstance(val, list): return val
    if isinstance(val, str):
        return [v.strip() for v in val.split(',') if v.strip()]
    return list(val) if val else []
```

`none` models the uncaught `TypeError` of `list(val)` on a truthy
non-iterable (number / bool); `list(dict)` is the key list. -/
def ensureList : Json → Option (List Json)
  | .null => some []
  | .arr xs => some xs
  | .str s => some ((commaSplitTrim s).map Json.str)
  | .obj kvs => if kvs.isEmpty then some [] else
      some (kvs.map fun kv => Json.str kv.1)
  | .num lex => if numLexemeIsZero lex then some [] else none
  | .bool b => if b then none else some []

/-- Pydantic-v2 validation of a `List[str]` field: every element must be a
string (ints etc. are not coerced); `none` models `ValidationError`. -/
def validateStrList : List Json → Option (List String)
  | [] => some []
  | .str s :: rest => (validateStrList rest).map (s :: ·)
  | _ :: _ => none

/-- `extract_string` (nested in `persona_scraper`):

```python
def extract_string(val):
    if isinstance(val, list) and val:
        return val[0].strip() if val[0] else None
    elif isinstance(val, str):
        return val.strip() or None
    return None
```

The outer `none` models the uncaught `AttributeError` of `.strip()` on a
truthy non-string first element.  Note the list branch has no `or None`:
a truthy whitespace-only first element yields the empty string. -/
def extractString : Json → Option (Option String)
  | .arr (v :: _) =>
    if v.pyTruthy then
      match v with
      | .str s => some (some (pyStrip s))
      | _ => none
    else some none
  | .str s => some (if (pyStripCh s.data).isEmpty then none
      else some (pyStrip s))
  | _ => some none

/-- Constructing `SocialProof(statement=..., source=...)` under pydantic-v2
validation: `statement` must be a string, `source` a string or `None`. -/
def mkSocialProof (statement source : Json) : Option SocialProof :=
  match statement, source with
  | .str s, .null => some ⟨s, none⟩
  | .str s, .str src => some ⟨s, some src⟩
  | _, _ => none

/-- One iteration of the `process_social_proof` loop: dict entries are
validated into records (`statement` defaulting to `''` when absent,
`source` to `None`), string entries become source-less records, anything
else is skipped (`some none`); the outer `none` is a `ValidationError`. -/
def socialProofOfEntry : Json → Option (Option SocialProof)
  | .obj kvs =>
    (mkSocialProof (jsonGetD kvs "statement" (Json.str ""))
      (jsonGet kvs "source")).map some
  | .str s => some (some ⟨s, none⟩)
  | _ => some none

/-- The `process_social_proof` loop over the entries. -/
def socialProofLoop : List Json → Option (List SocialProof)
  | [] => some []
  | e :: es =>
    match socialProofOfEntry e, socialProofLoop es with
    | some (some sp), some rest => some (sp :: rest)
    | some none, some rest => some rest
    | _, _ => none

/-- `process_social_proof` (nested in `persona_scraper`): a falsy or
non-list value yields `[]`. -/
def processSocialProof : Json → Option (List SocialProof)
  | .arr (e :: es) => socialProofLoop (e :: es)
  | _ => some []

/-- The six list fields patched before building the `Persona`. -/
def personaListFields : List String :=
  ["pain_points", "social_proof", "cost_of_inaction",
   "solutions", "objections", "competitive_advantages"]

def isNullJson : Json → Bool
  | .null => true
  | _ => false

/-- The patch loop: `if persona_json.get(field) is None:
persona_json[field] = []` for each of the six list fields. -/
def patchPersonaJson (kvs : List (String × Json)) : List (String × Json) :=
  personaListFields.foldl
    (fun acc f => if isNullJson (jsonGet acc f) then
        dictSet acc f (Json.arr []) else acc)
    kvs

/-- Building the `Persona(...)` at the end of `persona_scraper` from the
(parsed or default) `persona_json`.  `none` models an uncaught exception:
`.get` on a non-dict (`AttributeError`), `extract_string`/`ensure_list`
failures, or pydantic `ValidationError`. -/
def buildPersona (freshId : String) : Json → Option Persona
  | .obj kvs0 =>
    let kvs := patchPersonaJson kvs0
    (extractString (jsonGet kvs "title")).bind fun title =>
    (extractString (jsonGet kvs "company")).bind fun company =>
    ((ensureList (jsonGet kvs "pain_points")).bind validateStrList).bind
      fun pain =>
    (processSocialProof (jsonGet kvs "social_proof")).bind fun sp =>
    ((ensureList (jsonGet kvs "cost_of_inaction")).bind validateStrList).bind
      fun coi =>
    ((ensureList (jsonGet kvs "solutions")).bind validateStrList).bind
      fun sols =>
    ((ensureList (jsonGet kvs "objections")).bind validateStrList).bind
      fun objs =>
    ((ensureList (jsonGet kvs "competitive_advantages")).bind
      validateStrList).bind fun ca =>
    some { id := freshId, name := some "", email := some "",
           title := title, company := company,
           pain_points := pain, social_proof := sp,
           cost_of_inaction := coi, solutions := sols,
           objections := objs, competitive_advantages := ca }
  | _ => none

/-- The hard-coded `persona_json` substituted when the Gemini call or the
JSON parse fails. -/
def defaultPersonaJson : Json :=
  .obj [("title", .str "Unknown"),
        ("company", .str "Unknown"),
        ("pain_points", .arr [.str "Unable to analyze website"]),
        ("social_proof", .arr []),
        ("cost_of_inaction", .arr [.str "Unable to analyze website"]),
        ("solutions", .arr [.str "Unable to analyze website"]),
        ("objections", .arr [.str "Unable to analyze website"]),
        ("competitive_advantages", .arr [.str "Unable to analyze website"])]

/-- The `Persona` that `persona_scraper` builds from `defaultPersonaJson`. -/
def defaultPersona (freshId : String) : Persona :=
  { id := freshId, name := some "", email := some "",
    title := some "Unknown", company := some "Unknown",
    pain_points := ["Unable to analyze website"], social_proof := [],
    cost_of_inaction := ["Unable to analyze website"],
    solutions := ["Unable to analyze website"],
    objections := ["Unable to analyze website"],
    competitive_advantages := ["Unable to analyze website"] }

/-- The `persona_json` obtained from the LLM step: `none` models the Gemini
call raising; a reply text is stripped of markdown fences and parsed, any
failure substituting the default. -/
def personaJsonOfReply : Option String → Json
  | none => defaultPersonaJson
  | some text =>
    match jsonParse (stripFences text) with
    | some j => j
    | none => defaultPersonaJson

/-- `persona_scraper`'s processing of the LLM reply into a `Persona`
(the scraped web content only alters the prompt sent to the LLM oracle, so
it does not appear here; `freshId` is the generated `uuid4` string). -/
def personaScraperProcess (freshId : String) (llmReply : Option String) :
    Option Persona :=
  buildPersona freshId (personaJsonOfReply llmReply)

/-! ### Idea and message controllers (`idea_controller.py`,
`content_controllers.py`) -/

/-- `IdeasOutput(**ideas_json)` under pydantic-v2: the argument must be a
dict with an `ideas` key holding a list of strings; extra keys are ignored
(`none` models `TypeError`/`ValidationError`, caught by the controller). -/
def validateIdeasOutput : Json → Option IdeasOutput
  | .obj kvs =>
    match dictGet kvs "ideas" with
    | some (.arr xs) => (validateStrList xs).map IdeasOutput.mk
    | _ => none
  | _ => none

/-- `generate_ideas`: every failure (LLM call, JSON parse, validation) is
caught and yields `IdeasOutput(ideas=[])`. -/
def generateIdeas (llmReply : Option String) : IdeasOutput :=
  match llmReply with
  | none => ⟨[]⟩
  | some text =>
    match jsonParse (stripFences text) with
    | none => ⟨[]⟩
    | some j => (validateIdeasOutput j).getD ⟨[]⟩

/-- Validating one entry of `messages` into `MessageContent`: `body` must
be present and a string, `subject` a string or `None`/absent. -/
def validateMessageContent : Json → Option MessageContent
  | .obj kvs =>
    match jsonGet kvs "subject", dictGet kvs "body" with
    | .null, some (.str b) => some ⟨none, b⟩
    | .str s, some (.str b) => some ⟨some s, b⟩
    | _, _ => none
  | _ => none

def validateMessageList : List Json → Option (List MessageContent)
  | [] => some []
  | e :: es =>
    match validateMessageContent e, validateMessageList es with
    | some m, some rest => some (m :: rest)
    | _, _ => none

/-- `MessageOutput(**messages_json)` under pydantic-v2. -/
def validateMessageOutput : Json → Option MessageOutput
  | .obj kvs =>
    match dictGet kvs "messages" with
    | some (.arr xs) => (validateMessageList xs).map MessageOutput.mk
    | _ => none
  | _ => none

/-- `generate_email_content`: every failure is caught and yields
`MessageOutput(messages=[])`. -/
def generateEmailContent (llmReply : Option String) : MessageOutput :=
  match llmReply with
  | none => ⟨[]⟩
  | some text =>
    match jsonParse (stripFences text) with
    | none => ⟨[]⟩
    | some j => (validateMessageOutput j).getD ⟨[]⟩

/-- `generate_linkedin_content`: identical reply handling (the two
functions differ only in the prompt sent to the LLM oracle). -/
def generateLinkedinContent (llmReply : Option String) : MessageOutput :=
  match llmReply with
  | none => ⟨[]⟩
  | some text =>
    match jsonParse (stripFences text) with
    | none => ⟨[]⟩
    | some j => (validateMessageOutput j).getD ⟨[]⟩

/-! ### HTTP endpoints (`app/main.py`)

The database insert is an oracle outcome; an `HttpReply.err` is an
`HTTPException` reaching FastAPI (status and `detail`). -/

inductive DbResult where
  | ok (insertedId : String)
  | fail (msg : String)
deriving DecidableEq, Repr

inductive HttpReply (α : Type) where
  | ok (value : α)
  | err (status : Nat) (detail : String)
deriving DecidableEq, Repr

/-- Which side effects a `/persona` request performed. -/
structure Effects where
  scrapeAttempted : Bool
  llmCalled : Bool
  dbWriteAttempted : Bool
deriving DecidableEq, Repr

def noEffects : Effects := ⟨false, false, false⟩

def allEffects : Effects := ⟨true, true, true⟩

/-- Python `s.startswith(p)` on the character-list view. -/
def pyStartsWith (s p : String) : Bool := p.data.isPrefixOf s.data

/-- `POST /persona` (`create_persona`).  URL and description are validated
first (a `ValueError` reaches the generic handler as a 400 with the
exception text); then `persona_scraper` runs — an uncaught exception there
(non-dict reply, bad field types) also becomes a 400; a database insert
failure raises `HTTPException(500, "Database error: ...")`, which the
generic handler re-raises because its text contains `"Database error"`.
`scrapeFails` records whether the `requests.get` scrape raised; the scrape
result only alters the prompt sent to the LLM oracle (a failure is caught
and leaves `web_content` empty), so it does not affect the response. -/
def createPersona (url description freshId : String) (_scrapeFails : Bool)
    (llmReply : Option String) (db : DbResult) :
    HttpReply Persona × Effects :=
  if !(pyStartsWith url "http://" || pyStartsWith url "https://") then
    (.err 400 "URL must start with http:// or https://", noEffects)
  else if (pyStripCh description.data).isEmpty then
    (.err 400 "Description cannot be empty", noEffects)
  else
    match personaScraperProcess freshId llmReply with
    | none => (.err 400 "persona_scraper raised", ⟨true, true, false⟩)
    | some p =>
      match db with
      | .fail m => (.err 500 ("Database error: " ++ m), allEffects)
      | .ok _ => (.ok p, allEffects)

/-- `POST /ideas` (`get_ideas`): idea generation never raises; only the
database insert failure is re-raised, as a 500. -/
def getIdeasEndpoint (llmReply : Option String) (db : DbResult) :
    HttpReply IdeasOutput :=
  let ideas := generateIdeas llmReply
  match db with
  | .fail m => .err 500 ("Database error: " ++ m)
  | .ok _ => .ok ideas

/-- The `generated_content` value of the campaign endpoints: a plain
message list for a single channel, a two-key dict for `useboth`. -/
inductive GeneratedContent where
  | single (msgs : List MessageContent)
  | both (email linkedin : List MessageContent)
deriving DecidableEq, Repr

/-- Python truthiness of `generated_content`: a list is falsy iff empty;
the `useboth` dict has two keys and is always truthy. -/
def GeneratedContent.pyTruthy : GeneratedContent → Bool
  | .single msgs => !msgs.isEmpty
  | .both _ _ => true

/-- The channel dispatch shared by both campaign endpoints. -/
def campaignContent (channel : OutreachChannel)
    (emailReply linkedinReply : Option String) : GeneratedContent :=
  match channel with
  | .email => .single (generateEmailContent emailReply).messages
  | .linkedin => .single (generateLinkedinContent linkedinReply).messages
  | .useboth => .both (generateEmailContent emailReply).messages
      (generateLinkedinContent linkedinReply).messages

/-- The response model, reduced to the fields the claims are about (the
`campaign_details` dict of timestamps and generated ids is not modelled). -/
structure CampaignResponse where
  message : String
  generated_content : GeneratedContent
deriving DecidableEq, Repr

def campaignMessage (channel : OutreachChannel) : String :=
  "Campaign successfully created for \x27" ++ channel.channelValue ++
    "\x27 channel."

/-- `POST /create_campaign` (`create_campaign`): empty content is a 500;
the database insert failure is caught and only logged, so the response is
still a success. -/
def createCampaign (channel : OutreachChannel)
    (emailReply linkedinReply : Option String) (_db : DbResult) :
    HttpReply CampaignResponse :=
  let content := campaignContent channel emailReply linkedinReply
  if !content.pyTruthy then
    .err 500 "Failed to generate any campaign content."
  else
    .ok ⟨campaignMessage channel, content⟩

/-- `POST /create_campaign_create_campaign_post` (`create_campaign_post`):
same dispatch, but a database insert failure raises
`HTTPException(500, "Database error: ...")`. -/
def createCampaignPost (channel : OutreachChannel)
    (emailReply linkedinReply : Option String) (db : DbResult) :
    HttpReply CampaignResponse :=
  let content := campaignContent channel emailReply linkedinReply
  if !content.pyTruthy then
    .err 500 "Failed to generate any campaign content."
  else
    match db with
    | .fail m => .err 500 ("Database error: " ++ m)
    | .ok _ => .ok ⟨campaignMessage channel, content⟩

/-! ### Configuration (`app/config/config.py`,
`persona_controller.py` module init) -/

/-- The `Settings` model: its only field is the required
`GEMINI_API_KEY: str`. -/
structure Settings where
  GEMINI_API_KEY : String
deriving DecidableEq, Repr

/-- Loading `Settings()`: pydantic-settings reads `GEMINI_API_KEY` from the
merged environment / `.env` lookup (modelled as one oracle `env`); a
missing key is a `ValidationError`, re-raised as a `ValueError` by the
custom `__init__`; an empty string is accepted here. -/
def loadSettings (env : String → Option String) : Option Settings :=
  (env "GEMINI_API_KEY").map Settings.mk

/-- Module initialization of `persona_controller`: it raises `ValueError`
when `settings.GEMINI_API_KEY` is falsy (the empty string). -/
def controllerInit (s : Settings) : Option Unit :=
  if s.GEMINI_API_KEY = "" then none else some ()

/-- Service start-up: `main.py` imports the config and then the persona
controller, so both checks run before the app can serve. -/
def serviceInit (env : String → Option String) : Option Settings :=
  match loadSettings env with
  | none => none
  | some s =>
    match controllerInit s with
    | none => none
    | some _ => some s

/-! ### Supporting lemmas: stripping -/

lemma dropWhile_dw {α} (p : α → Bool) (l : List α) :
    (l.dropWhile p).dropWhile p = l.dropWhile p := by
  induction l with
  | nil => rfl
  | cons c rest ih =>
    rw [List.dropWhile_cons]
    by_cases hc : p c
    · rw [if_pos hc]
      exact ih
    · rw [if_neg hc, List.dropWhile_cons, if_neg hc]

lemma reverse_pfx_of_sfx {α} {l₁ l₂ : List α} (h : l₁ <:+ l₂) :
    l₁.reverse <+: l₂.reverse := by
  obtain ⟨s, rfl⟩ := h
  exact ⟨s.reverse, by simp⟩

lemma pyStripCh_pfx (l : List Char) :
    pyStripCh l <+: l.dropWhile pyIsSpace := by
  have h := reverse_pfx_of_sfx
    (List.dropWhile_suffix (l := (l.dropWhile pyIsSpace).reverse) pyIsSpace)
  simpa [pyStripCh] using h

lemma dropWhile_fix_head {α} {p : α → Bool} {c : α} {t : List α}
    (h : (c :: t).dropWhile p = c :: t) : p c = false := by
  by_contra hc
  rw [Bool.not_eq_false] at hc
  rw [List.dropWhile_cons, if_pos hc] at h
  have := congrArg List.length h
  have hle := List.IsSuffix.length_le (List.dropWhile_suffix (l := t) p)
  simp only [List.length_cons] at this
  omega

lemma dropWhile_eq_self_of_pfx {α} {p : α → Bool} {y x : List α}
    (hy : y.dropWhile p = y) (hx : x <+: y) : x.dropWhile p = x := by
  cases x with
  | nil => rfl
  | cons c t =>
    cases y with
    | nil => exact absurd (List.eq_nil_of_prefix_nil hx) (by simp)
    | cons d u =>
      rw [List.cons_prefix_cons] at hx
      have hd := dropWhile_fix_head hy
      rw [List.dropWhile_cons, hx.1, hd]
      simp

lemma pyStripCh_idem (l : List Char) : pyStripCh (pyStripCh l) = pyStripCh l := by
  have h1 : (pyStripCh l).dropWhile pyIsSpace = pyStripCh l :=
    dropWhile_eq_self_of_pfx (dropWhile_dw _ _) (pyStripCh_pfx l)
  simp only [pyStripCh] at h1 ⊢
  rw [h1, List.reverse_reverse, dropWhile_dw]

lemma pyStrip_idem (s : String) : pyStrip (pyStrip s) = pyStrip s := by
  simp only [pyStrip]
  exact congrArg String.mk (pyStripCh_idem s.data)

/-! ### Supporting lemmas: substring occurrence and `takeBefore` -/

lemma isPrefixOf_true (l₁ l₂ : List Char) :
    l₁.isPrefixOf l₂ = true ↔ l₁ <+: l₂ := by
  induction l₁ generalizing l₂ with
  | nil => simp [List.isPrefixOf]
  | cons a as ih =>
    cases l₂ with
    | nil => simp [List.isPrefixOf]
    | cons b bs =>
      simp [List.isPrefixOf, List.cons_prefix_cons, ih]

lemma prefix_of_append_of_le {α} {l x w : List α} (h : l <+: x ++ w)
    (hlen : l.length ≤ x.length) : l <+: x := by
  induction l generalizing x with
  | nil => exact List.nil_prefix
  | cons a as ih =>
    cases x with
    | nil => simp at hlen
    | cons b bs =>
      rw [List.cons_append, List.cons_prefix_cons] at h
      exact List.cons_prefix_cons.mpr
        ⟨h.1, ih h.2 (by simpa using hlen)⟩

lemma mem_of_prefix_getElem {α} {l w : List α} {i : ℕ} (h : l <+: w)
    (hi : i < l.length) (hw : i < w.length) : w[i] = l[i] := by
  obtain ⟨r, rfl⟩ := h
  exact List.getElem_append_left hi

lemma hasSub_iff (sep l : List Char) :
    hasSub sep l = true ↔ ∃ u v, l = u ++ sep ++ v := by
  induction l with
  | nil =>
    simp only [hasSub, List.isEmpty_iff]
    constructor
    · rintro rfl
      exact ⟨[], [], rfl⟩
    · rintro ⟨u, v, huv⟩
      have hlen := congrArg List.length huv
      simp only [List.length_nil, List.length_append] at hlen
      exact List.eq_nil_of_length_eq_zero (by omega)
  | cons c rest ih =>
    simp only [hasSub, Bool.or_eq_true, isPrefixOf_true, ih]
    constructor
    · rintro (⟨t, ht⟩ | ⟨u, v, rfl⟩)
      · exact ⟨[], t, by simp [← ht]⟩
      · exact ⟨c :: u, v, by simp⟩
    · rintro ⟨u, v, huv⟩
      cases u with
      | nil =>
        exact Or.inl ⟨v, by simpa using huv.symm⟩
      | cons a u' =>
        simp only [List.cons_append, List.cons.injEq] at huv
        exact Or.inr ⟨u', v, huv.2⟩

lemma hasSub_of_pfx {sep l : List Char} (h : sep <+: l) :
    hasSub sep l = true := by
  obtain ⟨t, ht⟩ := h
  exact (hasSub_iff sep l).mpr ⟨[], t, by simp [← ht]⟩

lemma hasSub_cons_false {s₀ : Char} {sr t : List Char} {d : Char}
    (hne : s₀ ≠ d) (ht : hasSub (s₀ :: sr) t = false) :
    hasSub (s₀ :: sr) (d :: t) = false := by
  simp only [hasSub, Bool.or_eq_false_iff]
  refine ⟨?_, ht⟩
  simp [List.isPrefixOf, hne]

lemma hasSub_append_left {a b l : List Char} (h : hasSub (a ++ b) l = true) :
    hasSub a l = true := by
  obtain ⟨u, v, rfl⟩ := (hasSub_iff _ _).mp h
  exact (hasSub_iff _ _).mpr ⟨u, b ++ v, by simp⟩

lemma hasSub_mono {sep m u v : List Char} (h : hasSub sep m = true) :
    hasSub sep (u ++ m ++ v) = true := by
  obtain ⟨x, y, rfl⟩ := (hasSub_iff _ _).mp h
  exact (hasSub_iff _ _).mpr ⟨u ++ x, y ++ v, by simp⟩

lemma takeBefore_cons_of_pfx {sep : List Char} {c : Char} {r : List Char}
    (h : sep <+: c :: r) : takeBefore sep (c :: r) = [] := by
  rw [takeBefore, if_pos ((isPrefixOf_true _ _).mpr h)]

lemma takeBefore_no_occ {sep : List Char} {l : List Char}
    (h : hasSub sep l = false) : takeBefore sep l = l := by
  induction l with
  | nil => rfl
  | cons c rest ih =>
    simp only [hasSub, Bool.or_eq_false_iff] at h
    rw [takeBefore, if_neg (by simp [h.1]), ih h.2]

/-- `takeBefore` passes untouched through a region `x` free of `sep`
occurrences when the next character `d` does not occur in `sep`: no
occurrence can start inside `x`. -/
lemma takeBefore_through {sep : List Char} (x : List Char) (d : Char)
    (z : List Char) (hx : hasSub sep x = false) (hd : d ∉ sep) :
    takeBefore sep (x ++ d :: z) = x ++ takeBefore sep (d :: z) := by
  induction x with
  | nil => simp
  | cons c x' ih =>
    simp only [hasSub, Bool.or_eq_false_iff] at hx
    have hnp : ¬ sep <+: c :: x' ++ d :: z := by
      intro hpfx
      by_cases hlen : sep.length ≤ (c :: x').length
      · have : sep <+: c :: x' :=
          prefix_of_append_of_le (by simpa using hpfx) hlen
        rw [← isPrefixOf_true] at this
        simp [this] at hx
      · push_neg at hlen
        have hiw : (c :: x').length < (c :: x' ++ d :: z).length := by
          simp
        have hgd : (c :: x' ++ d :: z)[(c :: x').length] = d := by
          rw [List.getElem_append_right (le_refl _)]
          simp
        have := mem_of_prefix_getElem hpfx hlen hiw
        rw [hgd] at this
        exact hd (this ▸ List.getElem_mem hlen)
    rw [List.cons_append, takeBefore,
      if_neg (by simpa [isPrefixOf_true] using hnp), ih hx.2]
    simp

lemma hasSub_cons_false' {sep t : List Char} {d : Char}
    (hne : sep.head? ≠ some d) (ht : hasSub sep t = false) :
    hasSub sep (d :: t) = false := by
  cases sep with
  | nil =>
    exfalso
    cases t with
    | nil => simp [hasSub] at ht
    | cons a t' => simp [hasSub, List.isPrefixOf] at ht
  | cons s₀ sr =>
    exact hasSub_cons_false (by simpa using hne) ht

/-! ### Supporting lemmas: fence unwrapping -/

lemma pyStripCh_sandwich {a b : Char} {m : List Char}
    (hh : pyIsSpace a = false) (ht : pyIsSpace b = false) :
    pyStripCh (a :: m ++ [b]) = a :: m ++ [b] := by
  simp [pyStripCh, List.dropWhile_cons, hh, ht]

lemma pyStripCh_shape {l : List Char} {a b : Char} {m : List Char}
    (hl : l = a :: m ++ [b]) (hh : pyIsSpace a = false)
    (ht : pyIsSpace b = false) : pyStripCh l = l := by
  subst hl
  exact pyStripCh_sandwich hh ht

lemma pyStripCh_nl_wrap (m : List Char) :
    pyStripCh ('\n' :: (m ++ ['\n'])) = pyStripCh m := by
  have hnl : pyIsSpace '\n' = true := rfl
  unfold pyStripCh
  rw [List.dropWhile_cons, if_pos hnl, List.dropWhile_append]
  by_cases hm : (m.dropWhile pyIsSpace).isEmpty
  · rw [if_pos hm]
    rw [List.isEmpty_iff] at hm
    rw [hm]
    rfl
  · rw [if_neg hm, List.reverse_append]
    simp [hnl]

/-- Unwrapping a reply wrapped in a plain ``` fence recovers the stripped
reply, provided the reply contains no ``` of its own. -/
lemma stripFencesCh_plain (td : List Char)
    (h : hasSub fenceChars td = false) :
    stripFencesCh (fenceChars ++ '\n' :: td ++ '\n' :: fenceChars) =
      pyStripCh td := by
  set W : List Char := fenceChars ++ '\n' :: td ++ '\n' :: fenceChars with hW
  have hself : pyStripCh W = W := by
    refine pyStripCh_shape (a := '\x60') (b := '\x60')
      (m := '\x60' :: '\x60' :: '\n' :: td ++ ['\n', '\x60', '\x60'])
      ?_ rfl rfl
    simp [hW, fenceChars, List.append_assoc]
  have hx3 : hasSub fenceChars ('\n' :: td) = false :=
    hasSub_cons_false' (by decide) h
  have hd3 : '\n' ∉ fenceChars := by decide
  have hc1 : jsonFenceChars.isPrefixOf W = false := rfl
  have hc2 : fenceChars.isPrefixOf W = true := rfl
  have step1 : stripFencesCh W =
      pyStripCh (takeBefore fenceChars
        (takeBefore fenceChars (W.drop fenceChars.length))) := by
    simp only [stripFencesCh, hself, hc1, hc2]
    simp
  rw [step1]
  calc pyStripCh (takeBefore fenceChars
        (takeBefore fenceChars (W.drop fenceChars.length)))
      = pyStripCh (takeBefore fenceChars
          (takeBefore fenceChars (('\n' :: td) ++ '\n' :: fenceChars))) := rfl
    _ = pyStripCh (takeBefore fenceChars
          (('\n' :: td) ++ takeBefore fenceChars ('\n' :: fenceChars))) := by
        rw [takeBefore_through ('\n' :: td) '\n' fenceChars hx3 hd3]
    _ = pyStripCh (takeBefore fenceChars (('\n' :: td) ++ ['\n'])) := rfl
    _ = pyStripCh (('\n' :: td) ++ takeBefore fenceChars ('\n' :: [])) := by
        rw [takeBefore_through ('\n' :: td) '\n' [] hx3 hd3]
    _ = pyStripCh ('\n' :: (td ++ ['\n'])) := rfl
    _ = pyStripCh td := pyStripCh_nl_wrap td

/-- Unwrapping a reply wrapped in a ```json fence recovers the stripped
reply, provided the reply contains no ``` of its own. -/
lemma stripFencesCh_json (td : List Char)
    (h : hasSub fenceChars td = false) :
    stripFencesCh (jsonFenceChars ++ '\n' :: td ++ '\n' :: fenceChars) =
      pyStripCh td := by
  set W : List Char := jsonFenceChars ++ '\n' :: td ++ '\n' :: fenceChars
    with hW
  have hself : pyStripCh W = W := by
    refine pyStripCh_shape (a := '\x60') (b := '\x60')
      (m := '\x60' :: '\x60' :: 'j' :: 's' :: 'o' :: 'n' :: '\n' :: td ++
        ['\n', '\x60', '\x60'])
      ?_ rfl rfl
    simp [hW, jsonFenceChars, fenceChars, List.append_assoc]
  have hx3 : hasSub fenceChars ('\n' :: td) = false :=
    hasSub_cons_false' (by decide) h
  have hx7 : hasSub jsonFenceChars ('\n' :: td) = false := by
    by_contra hcon
    rw [Bool.not_eq_false] at hcon
    have h2 : hasSub fenceChars ('\n' :: td) = true :=
      hasSub_append_left (a := fenceChars) (b := "json".data) hcon
    rw [hx3] at h2
    exact Bool.false_ne_true h2
  have hd3 : '\n' ∉ fenceChars := by decide
  have hd7 : '\n' ∉ jsonFenceChars := by decide
  have hc1 : jsonFenceChars.isPrefixOf W = true := rfl
  have step1 : stripFencesCh W =
      pyStripCh (takeBefore fenceChars
        (takeBefore jsonFenceChars (W.drop jsonFenceChars.length))) := by
    simp only [stripFencesCh, hself, hc1]
    simp
  rw [step1]
  calc pyStripCh (takeBefore fenceChars
        (takeBefore jsonFenceChars (W.drop jsonFenceChars.length)))
      = pyStripCh (takeBefore fenceChars
          (takeBefore jsonFenceChars (('\n' :: td) ++ '\n' :: fenceChars))) :=
        rfl
    _ = pyStripCh (takeBefore fenceChars
          (('\n' :: td) ++ takeBefore jsonFenceChars ('\n' :: fenceChars))) :=
        by rw [takeBefore_through ('\n' :: td) '\n' fenceChars hx7 hd7]
    _ = pyStripCh (takeBefore fenceChars
          (('\n' :: td) ++ '\n' :: fenceChars)) := rfl
    _ = pyStripCh (('\n' :: td) ++ takeBefore fenceChars ('\n' :: fenceChars))
        := by rw [takeBefore_through ('\n' :: td) '\n' fenceChars hx3 hd3]
    _ = pyStripCh (('\n' :: td) ++ ['\n']) := rfl
    _ = pyStripCh ('\n' :: (td ++ ['\n'])) := rfl
    _ = pyStripCh td := pyStripCh_nl_wrap td

/-- A reply free of ``` is left alone by the fence unwrapping (up to the
outer `strip`). -/
lemma stripFencesCh_id (td : List Char) (h : hasSub fenceChars td = false) :
    stripFencesCh td = pyStripCh td := by
  have hsub : ∃ u v, td = u ++ pyStripCh td ++ v := by
    have h1 := pyStripCh_pfx td
    have h2 := List.dropWhile_suffix (l := td) pyIsSpace
    obtain ⟨a, ha⟩ := h1
    obtain ⟨b, hb⟩ := h2
    exact ⟨b, a, by rw [List.append_assoc, ha, hb]⟩
  have hstrip : hasSub fenceChars (pyStripCh td) = false := by
    by_contra hcon
    rw [Bool.not_eq_false] at hcon
    obtain ⟨u, v, huv⟩ := hsub
    have : hasSub fenceChars td = true := by
      rw [huv]
      exact hasSub_mono hcon
    rw [h] at this
    exact Bool.false_ne_true this
  have hc1 : jsonFenceChars.isPrefixOf (pyStripCh td) = false := by
    by_contra hcon
    rw [Bool.not_eq_false, isPrefixOf_true] at hcon
    have h2 : hasSub jsonFenceChars (pyStripCh td) = true := hasSub_of_pfx hcon
    have h3 : hasSub fenceChars (pyStripCh td) = true :=
      hasSub_append_left (a := fenceChars) (b := "json".data) h2
    rw [hstrip] at h3
    exact Bool.false_ne_true h3
  have hc2 : fenceChars.isPrefixOf (pyStripCh td) = false := by
    by_contra hcon
    rw [Bool.not_eq_false, isPrefixOf_true] at hcon
    have h2 : hasSub fenceChars (pyStripCh td) = true := hasSub_of_pfx hcon
    rw [hstrip] at h2
    exact Bool.false_ne_true h2
  simp only [stripFencesCh, hc1, hc2]
  simp

lemma data_append (a b : String) : (a ++ b).data = a.data ++ b.data := rfl

lemma stripFences_wrapJson (t : String)
    (h : hasSub fenceChars t.data = false) :
    stripFences ("```json\n" ++ t ++ "\n```") = pyStrip t := by
  refine congrArg String.mk ?_
  have hd : ("```json\n" ++ t ++ "\n```").data =
      jsonFenceChars ++ '\n' :: t.data ++ '\n' :: fenceChars := by
    rw [data_append, data_append]
    have e1 : "```json\n".data = jsonFenceChars ++ ['\n'] := rfl
    have e2 : "\n```".data = '\n' :: fenceChars := rfl
    rw [e1, e2]
    simp
  rw [hd]
  exact stripFencesCh_json t.data h

lemma stripFences_wrapPlain (t : String)
    (h : hasSub fenceChars t.data = false) :
    stripFences ("```\n" ++ t ++ "\n```") = pyStrip t := by
  refine congrArg String.mk ?_
  have hd : ("```\n" ++ t ++ "\n```").data =
      fenceChars ++ '\n' :: t.data ++ '\n' :: fenceChars := by
    rw [data_append, data_append]
    have e1 : "```\n".data = fenceChars ++ ['\n'] := rfl
    have e2 : "\n```".data = '\n' :: fenceChars := rfl
    rw [e1, e2]
    simp
  rw [hd]
  exact stripFencesCh_plain t.data h

lemma stripFences_id (t : String) (h : hasSub fenceChars t.data = false) :
    stripFences t = pyStrip t :=
  congrArg String.mk (stripFencesCh_id t.data h)

/-! ### Supporting lemmas: dict patching and persona fields -/

lemma dictGet_dictSet_same (kvs : List (String × Json)) (k : String)
    (v : Json) : dictGet (dictSet kvs k v) k = some v := by
  induction kvs with
  | nil => simp [dictSet, dictGet]
  | cons kv rest ih =>
    obtain ⟨k', v'⟩ := kv
    by_cases h : k' = k
    · subst h
      simp [dictSet, dictGet]
    · simp [dictSet, dictGet, h, ih]

lemma dictGet_dictSet_other (kvs : List (String × Json)) (k k2 : String)
    (v : Json) (h : k2 ≠ k) :
    dictGet (dictSet kvs k v) k2 = dictGet kvs k2 := by
  induction kvs with
  | nil => simp [dictSet, dictGet, Ne.symm h]
  | cons kv rest ih =>
    obtain ⟨k', v'⟩ := kv
    by_cases hk : k' = k
    · subst hk
      simp [dictSet, dictGet, Ne.symm h]
    · simp only [dictSet, if_neg hk, dictGet]
      by_cases hk2 : k' = k2
      · simp [hk2]
      · simp [hk2, ih]

lemma patchPersonaJson_get (kvs : List (String × Json)) (f : String) :
    jsonGet (patchPersonaJson kvs) f =
      if f ∈ personaListFields ∧ isNullJson (jsonGet kvs f) = true
      then Json.arr [] else jsonGet kvs f := by
  have main : ∀ (fields : List String) (acc : List (String × Json)),
      jsonGet (fields.foldl (fun acc g =>
        if isNullJson (jsonGet acc g) then dictSet acc g (Json.arr [])
        else acc) acc) f =
      if f ∈ fields ∧ isNullJson (jsonGet acc f) = true
      then Json.arr [] else jsonGet acc f := by
    intro fields
    induction fields with
    | nil => intro acc; simp
    | cons g gs ih =>
      intro acc
      simp only [List.foldl_cons]
      rw [ih]
      by_cases hg : isNullJson (jsonGet acc g) = true
      · rw [if_pos hg]
        by_cases hfg : f = g
        · subst hfg
          have h1 : jsonGet (dictSet acc f (Json.arr [])) f = Json.arr [] := by
            simp [jsonGet, dictGet_dictSet_same]
          rw [h1]
          simp [hg]
        · have h1 : jsonGet (dictSet acc g (Json.arr [])) f = jsonGet acc f :=
            by simp [jsonGet, dictGet_dictSet_other _ _ _ _ hfg]
          rw [h1]
          simp [hfg]
      · rw [if_neg hg]
        by_cases hfg : f = g
        · subst hfg
          simp [hg]
        · simp [hfg]
  exact main personaListFields kvs

lemma isNullJson_iff (j : Json) : isNullJson j = true ↔ j = Json.null := by
  cases j <;> simp [isNullJson]

lemma validateStrList_map_str (xs : List String) :
    validateStrList (xs.map Json.str) = some xs := by
  induction xs with
  | nil => rfl
  | cons x xt ih => simp [validateStrList, ih]

lemma extractString_trimmed {v : Json} {s : String}
    (h : extractString v = some (some s)) : pyStrip s = s := by
  cases v with
  | arr xs =>
    cases xs with
    | nil => simp [extractString] at h
    | cons x xt =>
      by_cases hx : x.pyTruthy
      · cases x with
        | str s2 =>
          simp only [extractString, if_pos hx] at h
          rw [← Option.some.inj (Option.some.inj h)]
          exact pyStrip_idem s2
        | null => exact absurd hx (by simp [Json.pyTruthy])
        | bool b => simp [extractString, if_pos hx] at h
        | num lex => simp [extractString, if_pos hx] at h
        | arr ys => simp [extractString, if_pos hx] at h
        | obj m => simp [extractString, if_pos hx] at h
      · rw [Bool.not_eq_true] at hx
        simp [extractString, hx] at h
  | str s' =>
    rw [extractString] at h
    by_cases he : (pyStripCh s'.data).isEmpty
    · rw [if_pos he] at h
      simp at h
    · rw [if_neg he] at h
      have := Option.some.inj (Option.some.inj h)
      rw [← this]
      exact pyStrip_idem s'
  | null => simp [extractString] at h
  | bool b => simp [extractString] at h
  | num lex => simp [extractString] at h
  | obj kvs => simp [extractString] at h

/-- The presentation of a successfully built persona: every field is the
normalization of the corresponding (patched) JSON field. -/
lemma buildPersona_fields {u : String} {kvs : List (String × Json)}
    {p : Persona} (hp : buildPersona u (Json.obj kvs) = some p) :
    p.id = u ∧ p.name = some "" ∧ p.email = some "" ∧
    extractString (jsonGet (patchPersonaJson kvs) "title") = some p.title ∧
    extractString (jsonGet (patchPersonaJson kvs) "company") =
      some p.company ∧
    (ensureList (jsonGet (patchPersonaJson kvs) "pain_points")).bind
      validateStrList = some p.pain_points ∧
    processSocialProof (jsonGet (patchPersonaJson kvs) "social_proof") =
      some p.social_proof ∧
    (ensureList (jsonGet (patchPersonaJson kvs) "cost_of_inaction")).bind
      validateStrList = some p.cost_of_inaction ∧
    (ensureList (jsonGet (patchPersonaJson kvs) "solutions")).bind
      validateStrList = some p.solutions ∧
    (ensureList (jsonGet (patchPersonaJson kvs) "objections")).bind
      validateStrList = some p.objections ∧
    (ensureList (jsonGet (patchPersonaJson kvs)
      "competitive_advantages")).bind validateStrList =
      some p.competitive_advantages := by
  simp only [buildPersona] at hp
  obtain ⟨title, h1, hp⟩ := Option.bind_eq_some.mp hp
  obtain ⟨company, h2, hp⟩ := Option.bind_eq_some.mp hp
  obtain ⟨pain, h3, hp⟩ := Option.bind_eq_some.mp hp
  obtain ⟨sp, h4, hp⟩ := Option.bind_eq_some.mp hp
  obtain ⟨coi, h5, hp⟩ := Option.bind_eq_some.mp hp
  obtain ⟨sols, h6, hp⟩ := Option.bind_eq_some.mp hp
  obtain ⟨objs, h7, hp⟩ := Option.bind_eq_some.mp hp
  obtain ⟨ca, h8, hp⟩ := Option.bind_eq_some.mp hp
  cases Option.some.inj hp
  exact ⟨rfl, rfl, rfl, h1, h2, h3, h4, h5, h6, h7, h8⟩

/-! ### Claims -/

/-- C1: for every LLM reply text that is malformed or not JSON, the persona
pipeline returns the placeholder `Persona` built from the hard-coded
default, the ideas pipeline returns `IdeasOutput(ideas=[])`, and the two
message pipelines return `MessageOutput(messages=[])` — all structurally
valid outputs, none of them an exception. -/
theorem C1_malformed_reply_yields_valid_defaults (t u : String)
    (h : jsonParse (stripFences t) = none) :
    personaScraperProcess u (some t) = some (defaultPersona u) ∧
    generateIdeas (some t) = ⟨[]⟩ ∧
    generateEmailContent (some t) = ⟨[]⟩ ∧
    generateLinkedinContent (some t) = ⟨[]⟩ := by
  refine ⟨?_, ?_, ?_, ?_⟩
  · simp only [personaScraperProcess, personaJsonOfReply, h]
    rfl
  · simp only [generateIdeas, h]
  · simp only [generateEmailContent, h]
  · simp only [generateLinkedinContent, h]

/-- Witness for C1 at the malformed reply `"not json"`. -/
theorem C1_witness :
    jsonParse (stripFences "not json") = none ∧
    (personaScraperProcess "u0" (some "not json") =
        some (defaultPersona "u0") ∧
      generateIdeas (some "not json") = ⟨[]⟩ ∧
      generateEmailContent (some "not json") = ⟨[]⟩ ∧
      generateLinkedinContent (some "not json") = ⟨[]⟩) :=
  ⟨rfl, C1_malformed_reply_yields_valid_defaults "not json" "u0" rfl⟩

/-- C2: for every parsed persona JSON object, each of the six list fields
that is null (or absent, which `dict.get` also reports as `None`) ends up
as the empty list in the returned `Persona`. -/
theorem C2_null_list_fields_become_empty
    (u : String) (kvs : List (String × Json)) (p : Persona)
    (hp : buildPersona u (Json.obj kvs) = some p) :
    (jsonGet kvs "pain_points" = Json.null → p.pain_points = []) ∧
    (jsonGet kvs "social_proof" = Json.null → p.social_proof = []) ∧
    (jsonGet kvs "cost_of_inaction" = Json.null →
      p.cost_of_inaction = []) ∧
    (jsonGet kvs "solutions" = Json.null → p.solutions = []) ∧
    (jsonGet kvs "objections" = Json.null → p.objections = []) ∧
    (jsonGet kvs "competitive_advantages" = Json.null →
      p.competitive_advantages = []) := by
  obtain ⟨-, -, -, -, -, h3, h4, h5, h6, h7, h8⟩ := buildPersona_fields hp
  have patched : ∀ f : String, f ∈ personaListFields →
      jsonGet kvs f = Json.null →
      jsonGet (patchPersonaJson kvs) f = Json.arr [] := by
    intro f hf hnull
    rw [patchPersonaJson_get,
      if_pos ⟨hf, (isNullJson_iff _).mpr hnull⟩]
  refine ⟨fun hnull => ?_, fun hnull => ?_, fun hnull => ?_,
    fun hnull => ?_, fun hnull => ?_, fun hnull => ?_⟩
  · rw [patched _ (by simp [personaListFields]) hnull] at h3
    exact (Option.some.inj h3).symm
  · rw [patched _ (by simp [personaListFields]) hnull] at h4
    exact (Option.some.inj h4).symm
  · rw [patched _ (by simp [personaListFields]) hnull] at h5
    exact (Option.some.inj h5).symm
  · rw [patched _ (by simp [personaListFields]) hnull] at h6
    exact (Option.some.inj h6).symm
  · rw [patched _ (by simp [personaListFields]) hnull] at h7
    exact (Option.some.inj h7).symm
  · rw [patched _ (by simp [personaListFields]) hnull] at h8
    exact (Option.some.inj h8).symm

/-- The persona built from `{"pain_points": null}`: every list field is
empty and the optional strings are `None`. -/
def personaAllEmpty : Persona :=
  { id := "u0", name := some "", email := some "", title := none,
    company := none, pain_points := [], social_proof := [],
    cost_of_inaction := [], solutions := [], objections := [],
    competitive_advantages := [] }

/-- Witness for C2 on the object `{"pain_points": null}`. -/
theorem C2_witness :
    jsonGet [("pain_points", Json.null)] "pain_points" = Json.null ∧
    personaAllEmpty.pain_points = [] :=
  ⟨rfl, (C2_null_list_fields_become_empty "u0" [("pain_points", Json.null)]
    personaAllEmpty rfl).1 rfl⟩

/-- C3: a string value for a string-list field is normalized by splitting
on commas, stripping each piece and dropping the pieces that strip to
nothing; every element of the result is non-empty and fully stripped, and
this list is exactly what pydantic validation accepts into the field. -/
theorem C3_comma_string_normalization (s : String) :
    ensureList (Json.str s) = some ((commaSplitTrim s).map Json.str) ∧
    (ensureList (Json.str s)).bind validateStrList =
      some (commaSplitTrim s) ∧
    ∀ x ∈ commaSplitTrim s, x ≠ "" ∧ pyStrip x = x := by
  refine ⟨rfl, ?_, ?_⟩
  · show (some ((commaSplitTrim s).map Json.str)).bind validateStrList = _
    simp [validateStrList_map_str]
  · intro x hx
    rw [commaSplitTrim, List.mem_filterMap] at hx
    obtain ⟨piece, hmem, hx⟩ := hx
    simp only [trimPiece] at hx
    by_cases he : (pyStripCh piece).isEmpty
    · rw [if_pos he] at hx
      exact absurd hx (by simp)
    · rw [if_neg he] at hx
      obtain rfl := (Option.some.inj hx).symm
      constructor
      · intro hempty
        apply he
        have hdata : (String.mk (pyStripCh piece)).data = ("" : String).data :=
          congrArg String.data hempty
        rw [List.isEmpty_iff]
        exact hdata
      · show pyStrip ⟨pyStripCh piece⟩ = ⟨pyStripCh piece⟩
        exact congrArg String.mk (pyStripCh_idem piece)

/-- Witness for C3 at `" a , ,b "`. -/
theorem C3_witness :
    commaSplitTrim " a , ,b " = ["a", "b"] ∧
    ("a" ≠ "" ∧ pyStrip "a" = "a") :=
  ⟨rfl, (C3_comma_string_normalization " a , ,b ").2.2 "a" (by decide)⟩

/-- C4 counterexample: an object entry whose `statement` field is a number
is not mapped to a record — `SocialProof(statement=5)` raises a pydantic
`ValidationError` (modelled by `none`), which propagates out of
`persona_scraper`. -/
theorem C4_counterexample :
    socialProofOfEntry (Json.obj [("statement", Json.num "5")]) = none ∧
    processSocialProof
      (Json.arr [Json.obj [("statement", Json.num "5")]]) = none :=
  ⟨rfl, rfl⟩

/-- C4 (amended): object entries whose `statement` is a string (or absent,
defaulting to the empty string) and whose `source` is a string or
null/absent become `SocialProof` records with `source` defaulting to
absent; string entries become source-less records; a non-list (or empty)
`social_proof` yields `[]`; records accumulate over the list.  Object
entries with other field types make persona construction fail instead. -/
theorem C4_social_proof_normalization_amended :
    (∀ kvs s, jsonGetD kvs "statement" (Json.str "") = Json.str s →
      jsonGet kvs "source" = Json.null →
      socialProofOfEntry (Json.obj kvs) = some (some ⟨s, none⟩)) ∧
    (∀ kvs s src, jsonGetD kvs "statement" (Json.str "") = Json.str s →
      jsonGet kvs "source" = Json.str src →
      socialProofOfEntry (Json.obj kvs) = some (some ⟨s, some src⟩)) ∧
    (∀ s, socialProofOfEntry (Json.str s) = some (some ⟨s, none⟩)) ∧
    (∀ v, (∀ xs, v ≠ Json.arr xs) → processSocialProof v = some []) ∧
    processSocialProof (Json.arr []) = some [] ∧
    (∀ e es sp rest, socialProofOfEntry e = some (some sp) →
      processSocialProof (Json.arr es) = some rest →
      processSocialProof (Json.arr (e :: es)) = some (sp :: rest)) := by
  refine ⟨?_, ?_, ?_, ?_, rfl, ?_⟩
  · intro kvs s h1 h2
    simp only [socialProofOfEntry, h1, h2]
    rfl
  · intro kvs s src h1 h2
    simp only [socialProofOfEntry, h1, h2]
    rfl
  · intro s
    rfl
  · intro v hv
    cases v with
    | arr xs => exact absurd rfl (hv xs)
    | null => rfl
    | bool b => rfl
    | num lex => rfl
    | str s => rfl
    | obj kvs => rfl
  · intro e es sp rest he hes
    cases es with
    | nil =>
      have hrest : rest = [] := by
        simpa [processSocialProof] using hes.symm
      subst hrest
      simp only [processSocialProof, socialProofLoop, he]
    | cons e2 es' =>
      simp only [processSocialProof] at hes ⊢
      rw [socialProofLoop, he, hes]

/-- Witness for C4 (amended) on a well-typed object entry and a non-list
value. -/
theorem C4_witness :
    socialProofOfEntry (Json.obj [("statement", Json.str "great"),
      ("source", Json.str "web")]) = some (some ⟨"great", some "web"⟩) ∧
    processSocialProof (Json.str "irrelevant") = some [] :=
  ⟨C4_social_proof_normalization_amended.2.1 _ "great" "web" rfl rfl,
   C4_social_proof_normalization_amended.2.2.2.1 _
     (fun _ h => Json.noConfusion h)⟩

/-- C6 counterexample: the reply `{"a": "```"}` is well-formed JSON, but
fence-wrapping it changes the pipeline output — the unwrapping cuts the
reply at the inner ``` and the parse fails, so the persona pipeline
produces the placeholder instead of the parsed object. -/
theorem C6_counterexample :
    (jsonParse (stripFences "\x7b\"a\": \"```\"\x7d")).isSome = true ∧
    personaScraperProcess "u0"
        (some ("```\n" ++ "\x7b\"a\": \"```\"\x7d" ++ "\n```")) ≠
      personaScraperProcess "u0" (some "\x7b\"a\": \"```\"\x7d") :=
  ⟨rfl, by decide⟩

/-- C6 (amended): for every reply text `t` that contains no triple
backtick of its own, processing the reply wrapped in markdown code fences
(```json ... ``` or ``` ... ```) produces the same output as processing
`t` in each of the four pipelines. -/
theorem C6_fence_wrapping_amended (t u : String)
    (h : hasSub fenceChars t.data = false) :
    stripFences ("```json\n" ++ t ++ "\n```") = stripFences t ∧
    stripFences ("```\n" ++ t ++ "\n```") = stripFences t ∧
    personaScraperProcess u (some ("```json\n" ++ t ++ "\n```")) =
      personaScraperProcess u (some t) ∧
    personaScraperProcess u (some ("```\n" ++ t ++ "\n```")) =
      personaScraperProcess u (some t) ∧
    generateIdeas (some ("```json\n" ++ t ++ "\n```")) =
      generateIdeas (some t) ∧
    generateIdeas (some ("```\n" ++ t ++ "\n```")) =
      generateIdeas (some t) ∧
    generateEmailContent (some ("```json\n" ++ t ++ "\n```")) =
      generateEmailContent (some t) ∧
    generateEmailContent (some ("```\n" ++ t ++ "\n```")) =
      generateEmailContent (some t) ∧
    generateLinkedinContent (some ("```json\n" ++ t ++ "\n```")) =
      generateLinkedinContent (some t) ∧
    generateLinkedinContent (some ("```\n" ++ t ++ "\n```")) =
      generateLinkedinContent (some t) := by
  have hj : stripFences ("```json\n" ++ t ++ "\n```") = stripFences t := by
    rw [stripFences_wrapJson t h, stripFences_id t h]
  have hpl : stripFences ("```\n" ++ t ++ "\n```") = stripFences t := by
    rw [stripFences_wrapPlain t h, stripFences_id t h]
  refine ⟨hj, hpl, ?_, ?_, ?_, ?_, ?_, ?_, ?_, ?_⟩ <;>
    simp only [personaScraperProcess, personaJsonOfReply, generateIdeas,
      generateEmailContent, generateLinkedinContent, hj, hpl]

/-- Witness for C6 (amended) at the backtick-free reply `"[1, 2]"`. -/
theorem C6_witness :
    stripFences ("```json\n" ++ "[1, 2]" ++ "\n```") =
      stripFences "[1, 2]" ∧
    generateIdeas (some ("```\n" ++ "[1, 2]" ++ "\n```")) =
      generateIdeas (some "[1, 2]") :=
  ⟨(C6_fence_wrapping_amended "[1, 2]" "u0" rfl).1,
   (C6_fence_wrapping_amended "[1, 2]" "u0" rfl).2.2.2.2.2.1⟩

/-- C8 counterexample: on the reply `{"title": [" "]}` the returned
persona has `title = some ""` — the list branch of `extract_string` lacks
the `or None`, so a truthy whitespace-only first element strips to the
empty string, contradicting "never the empty string". -/
theorem C8_counterexample :
    (personaScraperProcess "u0" (some "\x7b\"title\": [\" \"]\x7d")).map
      Persona.title = some (some "") := rfl

/-- C8 (amended): every persona returned by `persona_scraper` has empty
`name` and `email`, its `id` is the generated uuid string, and `title` and
`company` are each `None` or a string with no leading or trailing
whitespace (the empty string is possible when the JSON field is a list
whose truthy first element is whitespace-only). -/
theorem C8_persona_shape_amended (u : String) (llmReply : Option String)
    (p : Persona) (hp : personaScraperProcess u llmReply = some p) :
    p.id = u ∧ p.name = some "" ∧ p.email = some "" ∧
    (∀ s, p.title = some s → pyStrip s = s) ∧
    (∀ s, p.company = some s → pyStrip s = s) := by
  have hb : buildPersona u (personaJsonOfReply llmReply) = some p := hp
  cases hj : personaJsonOfReply llmReply with
  | obj kvs =>
    rw [hj] at hb
    obtain ⟨hid, hname, hemail, htitle, hcompany, -, -, -, -, -, -⟩ :=
      buildPersona_fields hb
    refine ⟨hid, hname, hemail, ?_, ?_⟩
    · intro s hs
      rw [hs] at htitle
      exact extractString_trimmed htitle
    · intro s hs
      rw [hs] at hcompany
      exact extractString_trimmed hcompany
  | null =>
    rw [hj] at hb
    exact absurd hb (by simp [buildPersona])
  | bool b =>
    rw [hj] at hb
    exact absurd hb (by simp [buildPersona])
  | num lex =>
    rw [hj] at hb
    exact absurd hb (by simp [buildPersona])
  | str s =>
    rw [hj] at hb
    exact absurd hb (by simp [buildPersona])
  | arr xs =>
    rw [hj] at hb
    exact absurd hb (by simp [buildPersona])

/-- Witness for C8 (amended) on the placeholder persona produced by a
failing LLM call. -/
theorem C8_witness :
    personaScraperProcess "u0" none = some (defaultPersona "u0") ∧
    ((defaultPersona "u0").id = "u0" ∧
      (defaultPersona "u0").name = some "" ∧
      (defaultPersona "u0").email = some "" ∧
      (∀ s, (defaultPersona "u0").title = some s → pyStrip s = s) ∧
      (∀ s, (defaultPersona "u0").company = some s → pyStrip s = s)) :=
  ⟨rfl, C8_persona_shape_amended "u0" none (defaultPersona "u0") rfl⟩

/-- C5 counterexample: an error response is *not* returned exactly when
the document-store insert fails — a request with an invalid URL gets a 400
though its insert oracle is healthy, and `/create_campaign` answers with
success even though its insert fails. -/
theorem C5_counterexample :
    createPersona "ftp://x" "d" "u0" false none (.ok "id") =
      (.err 400 "URL must start with http:// or https://", noEffects) ∧
    createCampaign .email
        (some "\x7b\"messages\": [\x7b\"subject\": \"s\", \"body\": \"b\"\x7d]\x7d")
        none (.fail "down") =
      .ok ⟨campaignMessage .email, .single [⟨some "s", "b"⟩]⟩ :=
  ⟨rfl, rfl⟩

/-- C5 (amended): scraping, LLM-call and JSON-parse failures yield
defaults and success responses; an insert failure is propagated as a 500
by `/persona`, `/ideas` and the campaign-post endpoint but swallowed by
`/create_campaign`; and error responses also arise without any insert
failure — request validation yields 400, as does a reply that parses to a
non-object, while empty campaign content yields 500 (the latter is settled
in C9). -/
theorem C5_error_propagation_amended (url descr u dbid m t : String) :
    ((pyStartsWith url "http://" || pyStartsWith url "https://") = true →
      (pyStripCh descr.data).isEmpty = false →
      ∀ sf : Bool, createPersona url descr u sf none (.ok dbid) =
        (.ok (defaultPersona u), allEffects)) ∧
    ((pyStartsWith url "http://" || pyStartsWith url "https://") = true →
      (pyStripCh descr.data).isEmpty = false →
      jsonParse (stripFences t) = none →
      ∀ sf : Bool, createPersona url descr u sf (some t) (.ok dbid) =
        (.ok (defaultPersona u), allEffects)) ∧
    ((pyStartsWith url "http://" || pyStartsWith url "https://") = true →
      (pyStripCh descr.data).isEmpty = false →
      ∀ (sf : Bool) (llm : Option String) (p : Persona),
        personaScraperProcess u llm = some p →
        createPersona url descr u sf llm (.fail m) =
          (.err 500 ("Database error: " ++ m), allEffects)) ∧
    getIdeasEndpoint none (.ok dbid) = .ok ⟨[]⟩ ∧
    (∀ llm, getIdeasEndpoint llm (.fail m) =
      .err 500 ("Database error: " ++ m)) ∧
    (∀ ch eR lR db1 db2, createCampaign ch eR lR db1 =
      createCampaign ch eR lR db2) ∧
    (∀ ch eR lR, (campaignContent ch eR lR).pyTruthy = true →
      createCampaignPost ch eR lR (.fail m) =
        .err 500 ("Database error: " ++ m)) ∧
    ((pyStartsWith url "http://" || pyStartsWith url "https://") = false →
      ∀ (sf : Bool) (llm : Option String) (db : DbResult),
        createPersona url descr u sf llm db =
          (.err 400 "URL must start with http:// or https://", noEffects)) ∧
    ((pyStartsWith url "http://" || pyStartsWith url "https://") = true →
      (pyStripCh descr.data).isEmpty = false →
      ∀ (sf : Bool) (llm : Option String),
        personaScraperProcess u llm = none →
        ∀ db, createPersona url descr u sf llm db =
          (.err 400 "persona_scraper raised", ⟨true, true, false⟩)) := by
  refine ⟨?_, ?_, ?_, rfl, ?_, ?_, ?_, ?_, ?_⟩
  · intro hurl hdescr sf
    have hdp : personaScraperProcess u none = some (defaultPersona u) := rfl
    simp [createPersona, hurl, hdescr, hdp]
  · intro hurl hdescr hparse sf
    have hdp : personaScraperProcess u (some t) =
        some (defaultPersona u) := by
      simp only [personaScraperProcess, personaJsonOfReply, hparse]
      rfl
    simp [createPersona, hurl, hdescr, hdp]
  · intro hurl hdescr sf llm p hp
    simp [createPersona, hurl, hdescr, hp]
  · intro llm
    simp [getIdeasEndpoint]
  · intro ch eR lR db1 db2
    rfl
  · intro ch eR lR htruthy
    simp [createCampaignPost, htruthy]
  · intro hurl sf llm db
    simp [createPersona, hurl]
  · intro hurl hdescr sf llm hnone db
    simp [createPersona, hurl, hdescr, hnone]

/-- Witness for C5 (amended) at concrete requests. -/
theorem C5_witness :
    createPersona "http://x" "d" "u0" false none (.ok "id") =
      (.ok (defaultPersona "u0"), allEffects) ∧
    getIdeasEndpoint (some "oops") (.fail "boom") =
      .err 500 ("Database error: " ++ "boom") ∧
    createCampaign .email none none (.ok "id") =
      createCampaign .email none none (.fail "boom") :=
  ⟨(C5_error_propagation_amended "http://x" "d" "u0" "id" "boom" "oops").1
      rfl rfl false,
   (C5_error_propagation_amended "http://x" "d" "u0" "id" "boom"
      "oops").2.2.2.2.1 (some "oops"),
   (C5_error_propagation_amended "http://x" "d" "u0" "id" "boom"
      "oops").2.2.2.2.2.1 .email none none (.ok "id") (.fail "boom")⟩

/-- C7: the `Settings` model's only field is the required
`GEMINI_API_KEY`; initialization succeeds exactly on a present non-empty
key (a missing key raises in `Settings()`, an empty one in the persona
controller's module init), and the outcome depends on the environment only
through that single key. -/
theorem C7_api_key_required (env : String → Option String) :
    (serviceInit env = none ↔
      env "GEMINI_API_KEY" = none ∨ env "GEMINI_API_KEY" = some "") ∧
    (∀ k, env "GEMINI_API_KEY" = some k → k ≠ "" →
      serviceInit env = some ⟨k⟩) ∧
    (∀ env2 : String → Option String,
      env "GEMINI_API_KEY" = env2 "GEMINI_API_KEY" →
      serviceInit env = serviceInit env2) := by
  refine ⟨?_, ?_, ?_⟩
  · cases henv : env "GEMINI_API_KEY" with
    | none => simp [serviceInit, loadSettings, henv]
    | some k =>
      by_cases hk : k = ""
      · subst hk
        simp [serviceInit, loadSettings, controllerInit, henv]
      · simp [serviceInit, loadSettings, controllerInit, henv, hk]
  · intro k hk hne
    simp [serviceInit, loadSettings, controllerInit, hk, hne]
  · intro env2 he
    simp only [serviceInit, loadSettings, he]

/-- Witness for C7 at an environment holding a non-empty key. -/
theorem C7_witness :
    (serviceInit (fun _ => some "key") = none ↔
      ((fun _ => some "key") "GEMINI_API_KEY" = none ∨
        (fun _ => some "key") "GEMINI_API_KEY" = some "")) ∧
    serviceInit (fun _ => some "key") = some ⟨"key"⟩ :=
  ⟨(C7_api_key_required (fun _ => some "key")).1,
   (C7_api_key_required (fun _ => some "key")).2.1 "key" rfl (by decide)⟩

/-- C9: when content generation produces no messages, the `email` and
`linkedin` channels fail with a 500 ("Failed to generate any campaign
content.") on both campaign endpoints, while `useboth` succeeds with a
record holding empty email and linkedin lists — the two-key dict is truthy
even when both lists are empty. -/
theorem C9_empty_campaign_content (eR lR : Option String) (dbid : String)
    (hE : (generateEmailContent eR).messages = [])
    (hL : (generateLinkedinContent lR).messages = []) :
    createCampaign .email eR lR (.ok dbid) =
      .err 500 "Failed to generate any campaign content." ∧
    createCampaign .linkedin eR lR (.ok dbid) =
      .err 500 "Failed to generate any campaign content." ∧
    createCampaignPost .email eR lR (.ok dbid) =
      .err 500 "Failed to generate any campaign content." ∧
    createCampaignPost .linkedin eR lR (.ok dbid) =
      .err 500 "Failed to generate any campaign content." ∧
    createCampaign .useboth eR lR (.ok dbid) =
      .ok ⟨campaignMessage .useboth, .both [] []⟩ ∧
    createCampaignPost .useboth eR lR (.ok dbid) =
      .ok ⟨campaignMessage .useboth, .both [] []⟩ := by
  refine ⟨?_, ?_, ?_, ?_, ?_, ?_⟩ <;>
    simp [createCampaign, createCampaignPost, campaignContent, hE, hL,
      GeneratedContent.pyTruthy]

/-- Witness for C9 with both LLM calls failing. -/
theorem C9_witness :
    (generateEmailContent none).messages = [] ∧
    createCampaign .email none none (.ok "id") =
      .err 500 "Failed to generate any campaign content." ∧
    createCampaign .useboth none none (.ok "id") =
      .ok ⟨campaignMessage .useboth, .both [] []⟩ :=
  ⟨rfl, (C9_empty_campaign_content none none "id" rfl rfl).1,
   (C9_empty_campaign_content none none "id" rfl rfl).2.2.2.2.1⟩

/-- C10: a `POST /persona` request whose url lacks an http(s) scheme, or
whose description is empty or whitespace-only, is rejected with a 400 and
performs no scrape, no LLM call and no database write. -/
theorem C10_invalid_persona_request_rejected
    (url descr u : String) (sf : Bool) (llm : Option String)
    (db : DbResult) :
    ((pyStartsWith url "http://" || pyStartsWith url "https://") = false →
      createPersona url descr u sf llm db =
        (.err 400 "URL must start with http:// or https://", noEffects)) ∧
    ((pyStartsWith url "http://" || pyStartsWith url "https://") = true →
      (pyStripCh descr.data).isEmpty = true →
      createPersona url descr u sf llm db =
        (.err 400 "Description cannot be empty", noEffects)) := by
  constructor
  · intro hurl
    simp [createPersona, hurl]
  · intro hurl hdescr
    simp [createPersona, hurl, hdescr]

/-- Witness for C10 at a bad-scheme url and a whitespace description. -/
theorem C10_witness :
    createPersona "ftp://x" "desc" "u0" false none (.ok "id") =
      (.err 400 "URL must start with http:// or https://", noEffects) ∧
    createPersona "http://x" "  " "u0" false none (.ok "id") =
      (.err 400 "Description cannot be empty", noEffects) :=
  ⟨(C10_invalid_persona_request_rejected "ftp://x" "desc" "u0" false none
      (.ok "id")).1 rfl,
   (C10_invalid_persona_request_rejected "http://x" "  " "u0" false none
      (.ok "id")).2 rfl rfl⟩

end Twain

